import Mathlib

/-!
Shallow embedding of the bulk token-image extraction pipeline of the Arena
repository (respectful_bulk_extractor.py) and of the arena.trade image
scraper (image.py), together with proofs about the behaviour claimed in
the specification.

Conventions of the embedding:
- the SQL NULL of a TEXT column is modelled by Option String, NULL being none;
- a database table is a list of rows; a parameterized UPDATE statement is a
  map over the rows (every matching row is updated);
- the psycopg2 executemany call runs one UPDATE per parameter tuple and
  accumulates cursor.rowcount over the statements (sum of matched rows);
- a transaction is a pair of stores (committed, working): statements mutate
  the working store, commit publishes it, rollback discards it;
- network responses, file-write success and page contents are supplied by
  explicit oracle functions, so every fallible path of the code is a
  branch on an oracle value;
- the Python timestamp is an abstract Nat.
-/

/-! ## String helpers: the Python substring test (needle in haystack) -/

/-- listStartsWith hay needle is true when needle is a prefix of hay. -/
def listStartsWith : List Char → List Char → Bool
  | _, [] => true
  | [], _ :: _ => false
  | h :: t, n :: m => h = n && listStartsWith t m

/-- listContainsSub hay needle is true when needle occurs contiguously in hay. -/
def listContainsSub : List Char → List Char → Bool
  | [], needle => needle.isEmpty
  | h :: t, needle => listStartsWith (h :: t) needle || listContainsSub t needle

/-- strContainsSub hay needle models the Python expression (needle in hay). -/
def strContainsSub (hay needle : String) : Bool :=
  listContainsSub hay.data needle.data

/-! ## Upstream records (elements of the JSON array returned by /tokens) -/

/-- One element of the JSON list returned by the arenapro /tokens endpoint.
notDict models a list element that is not a JSON object (the code skips it
with isinstance); obj carries the two fields the extractor reads, each
possibly missing or empty. -/
inductive Tok
  | notDict
  | obj (token_contract_address : Option String) (photo_url : Option String)
deriving DecidableEq, Repr

/-- The guard chain of extract_image_mappings for one token: returns the
(address, url) pair the loop body would store, or none when some guard
fires (not a dict, missing or falsy address, missing or falsy url, url not
containing the starsarena host substring). Python "if not x" is true for
None and for the empty string. -/
def tokMapping : Tok → Option (String × String)
  | Tok.notDict => none
  | Tok.obj none _ => none
  | Tok.obj (some addr) urlO =>
    if addr = "" then none
    else
      match urlO with
      | none => none
      | some url =>
        if url = "" then none
        else if strContainsSub url "static.starsarena.com" then some (addr, url)
        else none

/-- Python dict assignment d[k] = v: overwrites the value of an existing
key in place, otherwise appends the new key at the end. -/
def insertM : List (String × String) → String → String → List (String × String)
  | [], k, v => [(k, v)]
  | (k1, v1) :: rest, k, v =>
    if k1 = k then (k1, v) :: rest else (k1, v1) :: insertM rest k v

/-- The loop of extract_image_mappings: threads the accumulated dict and the
instance counter self.total_mappings, which is incremented once per stored
token. -/
def extractGo : List Tok → List (String × String) → Nat → List (String × String) × Nat
  | [], m, c => (m, c)
  | t :: ts, m, c =>
    match tokMapping t with
    | none => extractGo ts m c
    | some (a, u) => extractGo ts (insertM m a u) (c + 1)

/-- RespectfulBulkExtractor.extract_image_mappings. Besides the returned
dict it takes and returns the instance counter self.total_mappings, making
the mutation of instance state by the method explicit. -/
def extract_image_mappings (tokens : List Tok) (total_mappings : Nat) :
    List (String × String) × Nat :=
  extractGo tokens [] total_mappings

/-- Python dict.update(other): insert every pair of other into the dict. -/
def updateAll (m batch : List (String × String)) : List (String × String) :=
  batch.foldl (fun acc e => insertM acc e.1 e.2) m

/-- Lookup in the mapping dict (value stored for an address, if any). -/
def lookupM : List (String × String) → String → Option String
  | [], _ => none
  | e :: rest, a => if e.1 == a then some e.2 else lookupM rest a

/-! ## The token_deployments store and the batch upsert -/

/-- A row of the token_deployments table, restricted to the columns the
batch upsert touches. image_url is a nullable TEXT column. -/
structure Row where
  token_address : String
  image_url : Option String
deriving DecidableEq, Repr

/-- The SQL condition (image_url IS NULL OR image_url = ''). -/
def isNullOrEmpty : Option String → Bool
  | none => true
  | some s => s = ""

/-- Effect on one row of the statement
UPDATE token_deployments SET image_url = u
WHERE token_address = a AND (image_url IS NULL OR image_url = ''). -/
def sqlUpdateRow (a u : String) (r : Row) : Row :=
  if r.token_address == a && isNullOrEmpty r.image_url then
    { r with image_url := some u }
  else r

/-- Rowcount of that UPDATE statement: number of rows matching its WHERE
clause. -/
def sqlUpdateCount (a : String) (db : List Row) : Nat :=
  db.countP (fun r => r.token_address == a && isNullOrEmpty r.image_url)

/-- cursor.executemany over the update_data tuples: runs the UPDATE once
per (address, url) entry against the evolving store and accumulates the
rowcounts (psycopg2 sums the per-statement rowcounts into
cursor.rowcount). In the code each parameter tuple is (img_url, addr); we
carry the pair as (addr, img_url). -/
def execManySql (db : List Row) : List (String × String) → List Row × Nat
  | [] => (db, 0)
  | e :: rest =>
    let cnt := sqlUpdateCount e.1 db
    let db1 := db.map (sqlUpdateRow e.1 e.2)
    let res := execManySql db1 rest
    (res.1, cnt + res.2)

/-- The ways the database interaction of update_database_batch can fail:
connFail models _get_db_connection returning None, execFail k models an
exception raised after k statements of the executemany have run. -/
inductive DbFailure
  | connFail
  | execFail (k : Nat)
deriving DecidableEq, Repr

/-- A psycopg2 connection with an open transaction: committed is the state
visible outside the transaction, working the state the cursor mutates.
Nothing is published until commit. -/
structure PgTxn where
  committed : List Row
  working : List Row
deriving DecidableEq, Repr

/-- Opening a connection starts a transaction whose working state is the
committed store. -/
def txnBegin (db : List Row) : PgTxn := ⟨db, db⟩

/-- conn.commit(): the working state becomes the visible store. -/
def txnCommit (t : PgTxn) : List Row := t.working

/-- conn.rollback(): the working state is discarded; the visible store is
the committed state from before the transaction. -/
def txnRollback (t : PgTxn) : List Row := t.committed

/-- RespectfulBulkExtractor.update_database_batch: returns the visible
store after the call together with the returned updated_count. fail = none
is the success path (executemany, commit); DbFailure.connFail returns 0
with no connection; DbFailure.execFail k raises after k statements, so the
except branch rolls the transaction back and the initial updated_count = 0
is returned. -/
def update_database_batch (db : List Row) (mappings : List (String × String))
    (fail : Option DbFailure) : List Row × Nat :=
  if mappings.isEmpty then (db, 0)
  else
    match fail with
    | some DbFailure.connFail => (db, 0)
    | some (DbFailure.execFail k) =>
      let t := txnBegin db
      let w := (execManySql t.working (mappings.take k)).1
      (txnRollback { t with working := w }, 0)
    | none =>
      let t := txnBegin db
      let res := execManySql t.working mappings
      (txnCommit { t with working := res.1 }, res.2)

/-- Per-row residual of the executemany: the statements of the batch
applied in order to a single row (used to state closed forms). -/
def rowFold (es : List (String × String)) (r : Row) : Row :=
  es.foldl (fun r e => sqlUpdateRow e.1 e.2 r) r

/-- Modelled from the spec: the per-row contract of the Batch Upsert
Writer. Applying the batch leaves the image URL of a row unchanged if its
value is non-empty, regardless of the value in the mapping; sets it to the
value from the mapping if it is NULL or empty; rows whose address is not in the
mapping are untouched. -/
def specUpsertRow (m : List (String × String)) (r : Row) : Row :=
  match lookupM m r.token_address with
  | none => r
  | some u => if isNullOrEmpty r.image_url then { r with image_url := some u } else r

/-- The rows of a store that the WHERE clause of the batch for mapping m
can match: address present in m and image_url NULL or empty. -/
def matchedByBatch (m : List (String × String)) (r : Row) : Bool :=
  (lookupM m r.token_address).isSome && isNullOrEmpty r.image_url

/-! ## fetch_tokens_with_retry -/

/-- Outcome of one HTTP attempt of fetch_tokens_with_retry:
rateLimited is a 429 carrying the Retry-After value; okList is a 200 whose
JSON body is a list; notList is a 200 whose JSON body is not a list;
reqError is any requests.exceptions.RequestException (timeout, connection
error, raise_for_status on a 4xx/5xx, JSON decode error). -/
inductive FetchResp
  | rateLimited (retry_after : Nat)
  | okList (tokens : List Tok)
  | notList
  | reqError
deriving Repr

/-- A sleep performed by fetch_tokens_with_retry: either the
server-directed time.sleep(retry_after) of the 429 branch, or the
exponential-backoff sleep of base_delay * backoff_factor ** attempt. -/
inductive SleepEv
  | retryAfter (secs : Nat)
  | backoff (attempt : Nat)
deriving DecidableEq, Repr

/-- The body of (for attempt in range(self.max_retries)) with
max_retries = 3. resp gives the outcome of each attempt; the result is
(returned token list, number of attempts consumed, sleeps performed in
order). Falling off the loop returns the empty list. -/
def fetchRetryGo (resp : Nat → FetchResp) (attempt : Nat) (sleeps : List SleepEv) :
    List Tok × Nat × List SleepEv :=
  if _h : 3 ≤ attempt then ([], attempt, sleeps)
  else
    match resp attempt with
    | FetchResp.rateLimited r =>
      fetchRetryGo resp (attempt + 1) (sleeps ++ [SleepEv.retryAfter r])
    | FetchResp.okList data => (data, attempt + 1, sleeps)
    | FetchResp.notList => ([], attempt + 1, sleeps)
    | FetchResp.reqError =>
      if attempt + 1 < 3 then
        fetchRetryGo resp (attempt + 1) (sleeps ++ [SleepEv.backoff attempt])
      else ([], attempt + 1, sleeps)
termination_by 3 - attempt
decreasing_by
  all_goals omega

/-- RespectfulBulkExtractor.fetch_tokens_with_retry (limit and offset only
select which page the oracle describes, so they are left implicit in
resp). -/
def fetch_tokens_with_retry (resp : Nat → FetchResp) : List Tok × Nat × List SleepEv :=
  fetchRetryGo resp 0 []

/-! ## The paginated extraction loop (bulk_extract_all_tokens) -/

/-- The local state of the while loop of bulk_extract_all_tokens, plus the
two instance counters it mutates. -/
structure LoopState where
  offset : Nat
  consecutive_empty : Nat
  pages_fetched : Nat
  all_mappings : List (String × String)
  total_fetched : Nat
  total_mappings : Nat
deriving DecidableEq, Repr

/-- The while loop of bulk_extract_all_tokens with batch_size = 50,
max_consecutive_empty = 3 and the safety cap offset > 100000.
fetch gives the token page obtained (after retries) at each offset: an
empty list is an empty or failed page. writeOk tells whether the
checkpoint file write of save_progress at a given offset succeeds;
save_progress has no exception handler, so a failed write propagates out
of the loop, modelled by Except.error carrying the state at the raise.
The in-loop call to update_database_batch does not touch any loop state
(its return value is dropped and it swallows its own exceptions), so it
is not modelled here. Each iteration performs exactly one page fetch, so
pages_fetched counts fetched pages. -/
def bulk_extract_loop (fetch : Nat → List Tok) (writeOk : Nat → Bool)
    (st : LoopState) : Except LoopState LoopState :=
  if 3 ≤ st.consecutive_empty then Except.ok st
  else
    let tokens := fetch st.offset
    if tokens.isEmpty then
      let st1 := { st with consecutive_empty := st.consecutive_empty + 1,
                           pages_fetched := st.pages_fetched + 1 }
      if 3 ≤ st1.consecutive_empty then Except.ok st1
      else
        if st1.offset % 1000 = 0 && !(writeOk st1.offset) then Except.error st1
        else
          let st2 := { st1 with offset := st1.offset + 50 }
          if 100000 < st2.offset then Except.ok st2
          else bulk_extract_loop fetch writeOk st2
    else
      let em := extract_image_mappings tokens st.total_mappings
      let st1 := { st with consecutive_empty := 0,
                           pages_fetched := st.pages_fetched + 1,
                           total_fetched := st.total_fetched + tokens.length,
                           all_mappings := updateAll st.all_mappings em.1,
                           total_mappings := em.2 }
      if st1.offset % 1000 = 0 && !(writeOk st1.offset) then Except.error st1
      else
        let st2 := { st1 with offset := st1.offset + 50 }
        if 100000 < st2.offset then Except.ok st2
        else bulk_extract_loop fetch writeOk st2
termination_by 100051 - st.offset
decreasing_by
  all_goals simp_all
  all_goals omega

/-! ## The arena.trade image scraper (image.py) -/

/-- A row of token_deployments restricted to the columns the scraper
touches. Every column is nullable. -/
structure ImgRow where
  token_address : String
  arena_image_url : Option String
  arena_image_file_path : Option String
  arena_image_scrape_status : Option String
  arena_image_scraped_at : Option Nat
deriving DecidableEq, Repr

/-- The deterministic local path self.images_dir / (address ++ ".png"). -/
def imageFilePath (addr : String) : String :=
  "token_images/" ++ addr ++ ".png"

/-- The opengraph image URL requested for an address. -/
def opengraphUrl (addr : String) : String :=
  "https://arena.trade/token/" ++ addr ++ "/opengraph-image"

/-- TokenImageScraper.update_token_image_status: the UPDATE sets all four
arena columns of every row with the given address, unconditionally, to the
supplied values (url and path may be NULL). -/
def update_token_image_status (db : List ImgRow) (now : Nat) (addr status : String)
    (url path : Option String) : List ImgRow :=
  db.map (fun r =>
    if r.token_address == addr then
      { r with arena_image_scraped_at := some now,
               arena_image_scrape_status := some status,
               arena_image_url := url,
               arena_image_file_path := path }
    else r)

/-- The filesystem as the set of file paths present, written by
aiofiles.open(..., wb): creating a file that exists leaves one copy. -/
def fsWrite (fs : List String) (p : String) : List String :=
  if p ∈ fs then fs else p :: fs

/-- Path.unlink: remove a path from the filesystem. -/
def fsRemove (fs : List String) (p : String) : List String :=
  fs.filter (fun q => q != p)

/-- The outcome of the HTTP GET of download_image: an HTTP response with a
status code and body, an asyncio.TimeoutError, or any other exception. -/
inductive DlResp
  | http (code : Nat) (content : String)
  | timeout
  | netError
deriving Repr

/-- TokenImageScraper.download_image for one address: on a 200 the body is
written to the deterministic path and the row is updated with status
"success", the URL and the local path; on any non-200 status the row gets
status "failed" and NULL url and path and no file is written; a timeout or
other exception records "timeout" or "error" likewise. Returns the new
store, the new filesystem and the boolean result of the coroutine. -/
def download_image (db : List ImgRow) (fs : List String) (now : Nat)
    (addr : String) (resp : DlResp) : List ImgRow × List String × Bool :=
  match resp with
  | DlResp.http code _ =>
    if code = 200 then
      (update_token_image_status db now addr "success"
        (some (opengraphUrl addr)) (some (imageFilePath addr)),
       fsWrite fs (imageFilePath addr), true)
    else
      (update_token_image_status db now addr "failed" none none, fs, false)
  | DlResp.timeout =>
    (update_token_image_status db now addr "timeout" none none, fs, false)
  | DlResp.netError =>
    (update_token_image_status db now addr "error" none none, fs, false)

/-- The SQL predicate (arena_image_scrape_status != "success" in SQL text) under SQL
three-valued logic: a NULL status makes the comparison NULL, which does
not select the row. -/
def statusNotSuccess (r : ImgRow) : Bool :=
  match r.arena_image_scrape_status with
  | some s => s != "success"
  | none => false

/-- TokenImageScraper.cleanup_failed_images: selects the addresses whose
status is not success and whose recorded file path is non-NULL, unlinks
their deterministic path when present (counting the removals), then nulls
the file path of every row whose status is not success. Returns the new
store, the new filesystem and cleaned_count. -/
def cleanup_failed_images (db : List ImgRow) (fs : List String) :
    List ImgRow × List String × Nat :=
  let failed := (db.filter (fun r => statusNotSuccess r && r.arena_image_file_path.isSome)).map
    (fun r => r.token_address)
  let swept := failed.foldl
    (fun acc a =>
      if imageFilePath a ∈ acc.1 then (fsRemove acc.1 (imageFilePath a), acc.2 + 1)
      else acc)
    (fs, 0)
  let db1 := db.map (fun r =>
    if statusNotSuccess r then { r with arena_image_file_path := none } else r)
  (db1, swept.1, swept.2)

theorem execManySql_fst (es : List (String × String)) : ∀ db : List Row,
    (execManySql db es).1 = db.map (rowFold es) := by
  induction es with
  | nil => intro db; exact (List.map_id db).symm
  | cons e rest ih =>
    intro db
    show (execManySql (db.map (sqlUpdateRow e.1 e.2)) rest).1 = _
    rw [ih, List.map_map]
    rfl

theorem sqlUpdateRow_addr (a u : String) (r : Row) :
    (sqlUpdateRow a u r).token_address = r.token_address := by
  unfold sqlUpdateRow; split <;> rfl

theorem sqlUpdateRow_of_ne (a u : String) (r : Row) (h : r.token_address ≠ a) :
    sqlUpdateRow a u r = r := by
  unfold sqlUpdateRow
  have hb : (r.token_address == a) = false := by simp [h]
  simp [hb]

theorem lookupM_eq_none_of_not_mem (es : List (String × String)) (a : String)
    (h : a ∉ es.map Prod.fst) : lookupM es a = none := by
  induction es with
  | nil => rfl
  | cons e rest ih =>
    simp only [List.map_cons, List.mem_cons, not_or] at h
    have hb : (e.1 == a) = false := by
      simp only [beq_eq_false_iff_ne]
      exact fun hc => h.1 hc.symm
    simp only [lookupM, hb, Bool.false_eq_true, if_false]
    exact ih h.2

theorem rowFold_of_none (es : List (String × String)) : ∀ r : Row,
    lookupM es r.token_address = none → rowFold es r = r := by
  induction es with
  | nil => intro r _; rfl
  | cons e rest ih =>
    intro r h
    by_cases hb : e.1 = r.token_address
    · simp [lookupM, hb] at h
    · have h2 : lookupM rest r.token_address = none := by
        simpa [lookupM, hb] using h
      show rowFold rest (sqlUpdateRow e.1 e.2 r) = r
      rw [sqlUpdateRow_of_ne _ _ _ (fun hc => hb hc.symm)]
      exact ih r h2

theorem rowFold_closed (es : List (String × String)) (hnd : (es.map Prod.fst).Nodup) :
    ∀ r : Row, rowFold es r = specUpsertRow es r := by
  induction es with
  | nil => intro r; rfl
  | cons e rest ih =>
    intro r
    rw [List.map_cons, List.nodup_cons] at hnd
    show rowFold rest (sqlUpdateRow e.1 e.2 r) = _
    by_cases hb : e.1 = r.token_address
    · have hbb : (r.token_address == e.1) = true := by simp [hb.symm]
      have hr1 : sqlUpdateRow e.1 e.2 r =
          (if isNullOrEmpty r.image_url then { r with image_url := some e.2 } else r) := by
        unfold sqlUpdateRow
        cases hie : isNullOrEmpty r.image_url <;> simp [hbb, hie]
      have haddr : (sqlUpdateRow e.1 e.2 r).token_address = e.1 := by
        rw [sqlUpdateRow_addr, ← hb]
      have hnone : lookupM rest (sqlUpdateRow e.1 e.2 r).token_address = none := by
        rw [haddr]
        exact lookupM_eq_none_of_not_mem rest e.1 hnd.1
      rw [rowFold_of_none rest _ hnone, hr1]
      simp [specUpsertRow, lookupM, hb]
    · have hbb : (e.1 == r.token_address) = false := by simp [hb]
      rw [sqlUpdateRow_of_ne _ _ _ (fun hc => hb hc.symm), ih hnd.2 r]
      simp [specUpsertRow, lookupM, hbb]

theorem specUpsertRow_addr (m : List (String × String)) (r : Row) :
    (specUpsertRow m r).token_address = r.token_address := by
  unfold specUpsertRow
  cases lookupM m r.token_address with
  | none => rfl
  | some u => by_cases h : isNullOrEmpty r.image_url = true <;> simp [h]

theorem row_set_self (r : Row) (u : String) (h : r.image_url = some u) :
    { r with image_url := some u } = r := by
  cases r; simp_all

theorem specUpsertRow_idem (m : List (String × String)) (r : Row) :
    specUpsertRow m (specUpsertRow m r) = specUpsertRow m r := by
  cases hl : lookupM m r.token_address with
  | none =>
    have h1 : specUpsertRow m r = r := by simp [specUpsertRow, hl]
    rw [h1, h1]
  | some u =>
    cases hie : isNullOrEmpty r.image_url with
    | false =>
      have h1 : specUpsertRow m r = r := by simp [specUpsertRow, hl, hie]
      rw [h1, h1]
    | true =>
      have h1 : specUpsertRow m r = { r with image_url := some u } := by
        simp [specUpsertRow, hl, hie]
      rw [h1]
      have haddr : ({ r with image_url := some u } : Row).token_address = r.token_address := rfl
      unfold specUpsertRow
      rw [haddr, hl]
      cases hu : isNullOrEmpty (some u) with
      | false => rfl
      | true => simp [hu]

theorem update_database_batch_closed (m : List (String × String)) (db : List Row)
    (hnd : (m.map Prod.fst).Nodup) :
    (update_database_batch db m none).1 = db.map (specUpsertRow m) := by
  unfold update_database_batch
  by_cases hm : m.isEmpty
  · have hm2 : m = [] := List.isEmpty_iff.mp hm
    subst hm2
    simp only [List.isEmpty_nil, if_true]
    exact (List.map_id db).symm
  · simp only [hm, Bool.false_eq_true, if_false]
    show txnCommit _ = _
    unfold txnCommit txnBegin
    show (execManySql db m).1 = _
    rw [execManySql_fst]
    have : rowFold m = specUpsertRow m := funext (rowFold_closed m hnd)
    rw [this]

/-- Claim C1: for every mapping batch and store, applying the batch upsert maps
each row as follows: a row whose address has a value in the mapping keeps
its image_url when that is non-NULL and non-empty, and receives the
value from the mapping when it is NULL or empty; other rows are untouched. -/
theorem c1_upsert_fills_only_empty (m : List (String × String)) (db : List Row)
    (hnd : (m.map Prod.fst).Nodup) :
    (update_database_batch db m none).1 = db.map (specUpsertRow m) :=
  update_database_batch_closed m db hnd

theorem c1_upsert_fills_only_empty_witness :
    ((([("a", "u"), ("b", "v")] : List (String × String)).map Prod.fst).Nodup) ∧
    (update_database_batch
        [⟨"a", some "keep"⟩, ⟨"b", none⟩, ⟨"c", some ""⟩] [("a", "u"), ("b", "v")] none).1 =
      ([⟨"a", some "keep"⟩, ⟨"b", none⟩, ⟨"c", some ""⟩] : List Row).map
        (specUpsertRow [("a", "u"), ("b", "v")]) :=
  ⟨by decide, c1_upsert_fills_only_empty [("a", "u"), ("b", "v")]
    [⟨"a", some "keep"⟩, ⟨"b", none⟩, ⟨"c", some ""⟩] (by decide)⟩

/-- Claim C2: applying the same mapping batch twice yields the same final store
state as applying it once. -/
theorem c2_upsert_idempotent (m : List (String × String)) (db : List Row)
    (hnd : (m.map Prod.fst).Nodup) :
    (update_database_batch (update_database_batch db m none).1 m none).1 =
      (update_database_batch db m none).1 := by
  rw [update_database_batch_closed m db hnd, update_database_batch_closed m _ hnd,
    List.map_map]
  have : specUpsertRow m ∘ specUpsertRow m = specUpsertRow m :=
    funext (specUpsertRow_idem m)
  rw [this]

theorem c2_upsert_idempotent_witness :
    ((([("a", "u")] : List (String × String)).map Prod.fst).Nodup) ∧
    (update_database_batch
        (update_database_batch [⟨"a", none⟩, ⟨"b", some "w"⟩] [("a", "u")] none).1
        [("a", "u")] none).1 =
      (update_database_batch [⟨"a", none⟩, ⟨"b", some "w"⟩] [("a", "u")] none).1 :=
  ⟨by decide, c2_upsert_idempotent [("a", "u")] [⟨"a", none⟩, ⟨"b", some "w"⟩] (by decide)⟩

/-- Claim C4: when the batch write fails partway through, the transaction is
rolled back: the visible store is exactly the one before the call and the
reported count is zero. -/
theorem c4_failed_batch_rolls_back (db : List Row) (m : List (String × String)) (k : Nat) :
    update_database_batch db m (some (DbFailure.execFail k)) = (db, 0) := by
  unfold update_database_batch
  by_cases hm : m.isEmpty <;> simp [hm, txnBegin, txnRollback]

theorem countP_or_disjoint (l : List Row) (p q : Row → Bool)
    (h : ∀ x ∈ l, ¬(p x = true ∧ q x = true)) :
    l.countP (fun x => p x || q x) = l.countP p + l.countP q := by
  induction l with
  | nil => simp
  | cons a t ih =>
    simp only [List.countP_cons]
    rw [ih (fun x hx => h x (List.mem_cons_of_mem a hx))]
    have ha := h a (List.mem_cons_self a t)
    cases hp : p a <;> cases hq : q a <;> simp [hp, hq] at ha ⊢ <;> omega

theorem countP_or_le (l : List Row) (p q : Row → Bool) :
    l.countP (fun x => p x || q x) ≤ l.countP p + l.countP q := by
  induction l with
  | nil => simp
  | cons a t ih =>
    simp only [List.countP_cons]
    cases hp : p a <;> cases hq : q a <;> simp [hp, hq] <;> omega

theorem countP_addr_and_le_one (a : String) (g : Row → Bool) :
    ∀ db : List Row, (db.map Row.token_address).Nodup →
      db.countP (fun r => r.token_address == a && g r) ≤ 1 := by
  intro db
  induction db with
  | nil => intro _; simp
  | cons r t ih =>
    intro h
    rw [List.map_cons, List.nodup_cons] at h
    rw [List.countP_cons]
    cases hb : (r.token_address == a) with
    | false => simpa [hb] using ih h.2
    | true =>
      have ha : r.token_address = a := by simpa using hb
      have hz : t.countP (fun s => s.token_address == a && g s) = 0 := by
        apply List.countP_eq_zero.mpr
        intro s hs
        have hne : s.token_address ≠ a := by
          intro hc
          exact h.1 (ha ▸ hc ▸ List.mem_map_of_mem Row.token_address hs)
        simp [hne]
      cases hg : g r <;> simp [hb, hg, hz]

theorem lookupM_mem : ∀ (m : List (String × String)) (a u : String),
    lookupM m a = some u → (a, u) ∈ m := by
  intro m
  induction m with
  | nil => intro a u h; cases h
  | cons e rest ih =>
    intro a u h
    by_cases hb : e.1 = a
    · have : some e.2 = some u := by simpa [lookupM, hb] using h
      have hv : e.2 = u := by injection this
      have he : e = (a, u) := by cases e; simp_all
      rw [he]
      exact List.mem_cons_self _ _
    · have h2 : lookupM rest a = some u := by simpa [lookupM, hb] using h
      exact List.mem_cons_of_mem e (ih a u h2)

theorem execManySql_snd (m : List (String × String)) : ∀ db : List Row,
    (m.map Prod.fst).Nodup →
    (execManySql db m).2 = db.countP (matchedByBatch m) := by
  induction m with
  | nil =>
    intro db _
    show 0 = _
    symm
    apply List.countP_eq_zero.mpr
    intro r _
    simp [matchedByBatch, lookupM]
  | cons e rest ih =>
    intro db hnd
    rw [List.map_cons, List.nodup_cons] at hnd
    show sqlUpdateCount e.1 db + (execManySql (db.map (sqlUpdateRow e.1 e.2)) rest).2 = _
    rw [ih _ hnd.2, List.countP_map]
    have hcong : ∀ r ∈ db, (matchedByBatch rest ∘ sqlUpdateRow e.1 e.2) r = true ↔
        ((fun r => !(r.token_address == e.1) && matchedByBatch rest r) r = true) := by
      intro r _
      by_cases hb : r.token_address = e.1
      · have hn : lookupM rest (sqlUpdateRow e.1 e.2 r).token_address = none := by
          rw [sqlUpdateRow_addr, hb]
          exact lookupM_eq_none_of_not_mem rest e.1 hnd.1
        simp [matchedByBatch, hn, hb]
      · rw [Function.comp_apply, sqlUpdateRow_of_ne _ _ _ hb]
        simp [hb]
    rw [List.countP_congr hcong]
    rw [sqlUpdateCount]
    rw [← countP_or_disjoint db
      (fun r => r.token_address == e.1 && isNullOrEmpty r.image_url)
      (fun r => !(r.token_address == e.1) && matchedByBatch rest r)
      (by
        intro r _ hc
        rcases hc with ⟨h1, h2⟩
        simp only [Bool.and_eq_true, Bool.not_eq_true'] at h1 h2
        rw [h1.1] at h2
        cases h2.1)]
    apply List.countP_congr
    intro r _
    by_cases hb : r.token_address = e.1
    · simp [matchedByBatch, lookupM, hb]
    · have hbb : (e.1 == r.token_address) = false := by
        simp only [beq_eq_false_iff_ne]
        exact fun hc => hb hc.symm
      simp [matchedByBatch, lookupM, hb, hbb]

theorem zip_map_countP (F : Row → Row) : ∀ db : List Row,
    (db.zip (db.map F)).countP (fun p => decide (p.1 ≠ p.2)) =
      db.countP (fun r => decide (r ≠ F r)) := by
  intro db
  induction db with
  | nil => rfl
  | cons r t ih =>
    show ((r, F r) :: t.zip (t.map F)).countP _ = _
    rw [List.countP_cons, List.countP_cons, ih]

theorem changed_iff_matched (m : List (String × String))
    (hvals : ∀ e ∈ m, e.2 ≠ "") (r : Row) :
    (decide (r ≠ specUpsertRow m r)) = matchedByBatch m r := by
  cases hl : lookupM m r.token_address with
  | none => simp [specUpsertRow, hl, matchedByBatch]
  | some u =>
    have hu : u ≠ "" := hvals (r.token_address, u) (lookupM_mem m r.token_address u hl)
    cases hie : isNullOrEmpty r.image_url with
    | false => simp [specUpsertRow, hl, hie, matchedByBatch]
    | true =>
      have hne : r ≠ { r with image_url := some u } := by
        intro hc
        have himg : r.image_url = some u := congrArg Row.image_url hc
        rw [himg] at hie
        exact hu (by simpa [isNullOrEmpty] using hie)
      simp [specUpsertRow, hl, hie, matchedByBatch, hne]

theorem countP_matched_le (m : List (String × String)) : ∀ db : List Row,
    (db.map Row.token_address).Nodup → db.countP (matchedByBatch m) ≤ m.length := by
  induction m with
  | nil =>
    intro db _
    have : db.countP (matchedByBatch []) = 0 := by
      apply List.countP_eq_zero.mpr
      intro r _
      simp [matchedByBatch, lookupM]
    simp [this]
  | cons e rest ih =>
    intro db hnd
    have hpt : ∀ r ∈ db, matchedByBatch (e :: rest) r = true ↔
        ((fun r => (r.token_address == e.1 && isNullOrEmpty r.image_url) ||
          matchedByBatch rest r) r = true) := by
      intro r _
      by_cases hb : e.1 = r.token_address
      · simp [matchedByBatch, lookupM, hb]
      · have hbb : (e.1 == r.token_address) = false := by
          simp only [beq_eq_false_iff_ne]; exact hb
        have hbb2 : (r.token_address == e.1) = false := by
          simp only [beq_eq_false_iff_ne]; exact fun hc => hb hc.symm
        simp [matchedByBatch, lookupM, hbb, hbb2]
    rw [List.countP_congr hpt]
    calc db.countP _ ≤ db.countP (fun r => r.token_address == e.1 && isNullOrEmpty r.image_url)
          + db.countP (matchedByBatch rest) := countP_or_le db _ _
      _ ≤ 1 + rest.length :=
        Nat.add_le_add (countP_addr_and_le_one e.1 _ db hnd) (ih db hnd)
      _ = (e :: rest).length := by simp [Nat.add_comm]

/-- Claim C7: a successful non-empty batch returns the number of rows the batch
physically changed, and that count never exceeds the number of entries of
the mapping. -/
theorem c7_rowcount_is_changed_rows (m : List (String × String)) (db : List Row)
    (hm : m ≠ []) (hndm : (m.map Prod.fst).Nodup)
    (hnddb : (db.map Row.token_address).Nodup)
    (hvals : ∀ e ∈ m, e.2 ≠ "") :
    (update_database_batch db m none).2 =
      ((db.zip (update_database_batch db m none).1).countP (fun p => decide (p.1 ≠ p.2))) ∧
    (update_database_batch db m none).2 ≤ m.length := by
  have hne : m.isEmpty = false := by cases m with | nil => exact absurd rfl hm | cons a t => rfl
  have hsnd : (update_database_batch db m none).2 = (execManySql db m).2 := by
    unfold update_database_batch
    simp [hne, txnBegin, txnCommit]
  have hfst : (update_database_batch db m none).1 = db.map (specUpsertRow m) :=
    update_database_batch_closed m db hndm
  constructor
  · rw [hsnd, hfst, execManySql_snd m db hndm, zip_map_countP]
    apply List.countP_congr
    intro r _
    rw [changed_iff_matched m hvals r]
  · rw [hsnd, execManySql_snd m db hndm]
    exact countP_matched_le m db hnddb

theorem c7_rowcount_is_changed_rows_witness :
    (([("a", "u"), ("b", "v"), ("c", "w")] : List (String × String)) ≠ []) ∧
    ((update_database_batch [⟨"a", none⟩, ⟨"b", some "keep"⟩]
        [("a", "u"), ("b", "v"), ("c", "w")] none).2 =
      (([⟨"a", none⟩, ⟨"b", some "keep"⟩] : List Row).zip
        (update_database_batch [⟨"a", none⟩, ⟨"b", some "keep"⟩]
          [("a", "u"), ("b", "v"), ("c", "w")] none).1).countP
        (fun p => decide (p.1 ≠ p.2)) ∧
      (update_database_batch [⟨"a", none⟩, ⟨"b", some "keep"⟩]
        [("a", "u"), ("b", "v"), ("c", "w")] none).2 ≤
        ([("a", "u"), ("b", "v"), ("c", "w")] : List (String × String)).length) ∧
    (update_database_batch [⟨"a", none⟩, ⟨"b", some "keep"⟩]
        [("a", "u"), ("b", "v"), ("c", "w")] none).2 <
      ([("a", "u"), ("b", "v"), ("c", "w")] : List (String × String)).length :=
  ⟨by decide,
   c7_rowcount_is_changed_rows [("a", "u"), ("b", "v"), ("c", "w")]
     [⟨"a", none⟩, ⟨"b", some "keep"⟩] (by decide) (by decide) (by decide)
     (by decide),
   by decide⟩

theorem fetchRetryGo_attempts_le (resp : Nat → FetchResp) :
    ∀ (attempt : Nat) (sleeps : List SleepEv), attempt ≤ 3 →
      (fetchRetryGo resp attempt sleeps).2.1 ≤ 3 := by
  intro attempt sleeps
  induction attempt, sleeps using fetchRetryGo.induct resp with
  | case1 attempt sleeps h3 =>
    intro hle
    rw [fetchRetryGo]
    simp [h3]
    exact hle
  | case2 attempt sleeps h3 r hr ih =>
    intro _
    rw [fetchRetryGo]
    simp [h3, hr]
    exact ih (by omega)
  | case3 attempt sleeps h3 d hd =>
    intro _
    rw [fetchRetryGo]
    simp [h3, hd]
    omega
  | case4 attempt sleeps h3 hd =>
    intro _
    rw [fetchRetryGo]
    simp [h3, hd]
    omega
  | case5 attempt sleeps h3 hd hlt ih =>
    intro _
    rw [fetchRetryGo]
    simp [h3, hd, hlt]
    exact ih (by omega)
  | case6 attempt sleeps h3 hd hge =>
    intro _
    rw [fetchRetryGo]
    simp [h3, hd, hge]
    omega

/-- Claim C5 counterexample: the code counts a rate-limited attempt against
max_retries. With 429 responses at attempts 0, 1 and 2 and a successful
page available at attempt 3, the claim predicts the page is returned; the
code exhausts the three-attempt budget on the 429s, performs exactly three
attempts and returns the empty list. -/
theorem c5_counterexample :
    fetch_tokens_with_retry
        (fun n => if n < 3 then FetchResp.rateLimited 60
                  else FetchResp.okList [Tok.obj (some "a") (some "u")]) =
      ([], 3, [SleepEv.retryAfter 60, SleepEv.retryAfter 60, SleepEv.retryAfter 60]) ∧
    ([] : List Tok) ≠ [Tok.obj (some "a") (some "u")] := by
  constructor
  · simp [fetch_tokens_with_retry, fetchRetryGo]
  · simp

/-- Claim C5 amended: a 429 with Retry-After is honoured (the fetcher sleeps the
server-specified time and then retries, with no exponential-backoff
sleep), but the rate-limited attempt consumes one of the max_retries = 3
attempts like any other failure: no run of the fetcher ever makes more
than three attempts, rate-limited ones included, and three consecutive
429s exhaust the budget and yield the empty page. -/
theorem c5_rate_limit_honored_but_counted :
    (∀ resp : Nat → FetchResp, (fetch_tokens_with_retry resp).2.1 ≤ 3) ∧
    (∀ (r : Nat) (d : List Tok),
      fetch_tokens_with_retry (fun n => if n = 0 then FetchResp.rateLimited r else FetchResp.okList d) =
        (d, 2, [SleepEv.retryAfter r])) ∧
    (∀ r : Nat,
      fetch_tokens_with_retry (fun _ => FetchResp.rateLimited r) =
        ([], 3, [SleepEv.retryAfter r, SleepEv.retryAfter r, SleepEv.retryAfter r])) := by
  refine ⟨fun resp => fetchRetryGo_attempts_le resp 0 [] (by omega), ?_, ?_⟩
  · intro r d
    simp [fetch_tokens_with_retry, fetchRetryGo]
  · intro r
    simp [fetch_tokens_with_retry, fetchRetryGo]

theorem extractGo_split : ∀ (ts : List Tok) (m : List (String × String)) (c : Nat),
    (extractGo ts m c).1 = (extractGo ts m 0).1 ∧
    (extractGo ts m c).2 = c + (extractGo ts m 0).2 := by
  intro ts
  induction ts with
  | nil => intro m c; exact ⟨rfl, by simp [extractGo]⟩
  | cons t rest ih =>
    intro m c
    cases ht : tokMapping t with
    | none => simpa only [extractGo, ht] using ih m c
    | some p =>
      obtain ⟨a, u⟩ := p
      simp only [extractGo, ht]
      constructor
      · rw [(ih _ (c + 1)).1, (ih _ (0 + 1)).1]
      · rw [(ih _ (c + 1)).2, (ih _ (0 + 1)).2]
        omega

/-- Claim C8 counterexample: the extractor is not free of state mutation. On a
single well-formed token with a starsarena photo URL and a prior counter
value of 5, the method leaves the instance counter self.total_mappings at
6, not 5. -/
theorem c8_counterexample :
    (extract_image_mappings
        [Tok.obj (some "a") (some "https://static.starsarena.com/x.png")] 5).2 = 6 ∧
    (6 : Nat) ≠ 5 := ⟨rfl, by decide⟩

/-- Claim C8 amended: the extractor performs no I/O and is deterministic: the
returned mapping depends only on the input token list, not on the prior
counter state; but it does mutate instance state, incrementing
self.total_mappings by the number of records it stores. -/
theorem c8_extractor_deterministic_but_counts (tokens : List Tok) (c : Nat) :
    (extract_image_mappings tokens c).1 = (extract_image_mappings tokens 0).1 ∧
    (extract_image_mappings tokens c).2 = c + (extract_image_mappings tokens 0).2 :=
  extractGo_split tokens [] c

theorem bulk_loop_offset_inv (fetch : Nat → List Tok) (w : Nat → Bool) :
    ∀ st : LoopState, st.consecutive_empty < 3 → st.offset = 50 * st.pages_fetched →
      ∀ r : LoopState, bulk_extract_loop fetch w st = Except.ok r →
        (r.consecutive_empty = 3 ∧ r.offset + 50 = 50 * r.pages_fetched) ∨
        (r.consecutive_empty < 3 ∧ r.offset = 50 * r.pages_fetched) := by
  intro st
  induction st using bulk_extract_loop.induct fetch w with
  | case1 st h3 => intro hce _ _ _; omega
  | case2 st h3 tokens hemp st1 h3b =>
    intro hce hoff r hr
    have hemp2 : (fetch st.offset).isEmpty = true := hemp
    have h3b2 : 3 ≤ st.consecutive_empty + 1 := h3b
    rw [bulk_extract_loop, if_neg h3] at hr
    simp only [hemp2, if_true, if_pos h3b2, Except.ok.injEq] at hr
    subst hr
    left
    exact ⟨by show st.consecutive_empty + 1 = 3; omega,
           by show st.offset + 50 = 50 * (st.pages_fetched + 1); omega⟩
  | case3 st h3 tokens hemp st1 h3b hchk =>
    intro hce hoff r hr
    have hemp2 : (fetch st.offset).isEmpty = true := hemp
    have h3b2 : ¬3 ≤ st.consecutive_empty + 1 := h3b
    have hchk2 : (decide (st.offset % 1000 = 0) && !w st.offset) = true := hchk
    rw [bulk_extract_loop, if_neg h3] at hr
    simp only [hemp2, if_true, if_neg h3b2, if_pos hchk2] at hr
    cases hr
  | case4 st h3 tokens hemp st1 h3b hchk st2 hcap =>
    intro hce hoff r hr
    have hemp2 : (fetch st.offset).isEmpty = true := hemp
    have h3b2 : ¬3 ≤ st.consecutive_empty + 1 := h3b
    have hchk2 : ¬(decide (st.offset % 1000 = 0) && !w st.offset) = true := hchk
    have hcap2 : 100000 < st.offset + 50 := hcap
    rw [bulk_extract_loop, if_neg h3] at hr
    simp only [hemp2, if_true, if_neg h3b2, if_neg hchk2, if_pos hcap2,
      Except.ok.injEq] at hr
    subst hr
    right
    exact ⟨by show st.consecutive_empty + 1 < 3; omega,
           by show st.offset + 50 = 50 * (st.pages_fetched + 1); omega⟩
  | case5 st h3 tokens hemp st1 h3b hchk st2 hcap ih =>
    intro hce hoff r hr
    have hemp2 : (fetch st.offset).isEmpty = true := hemp
    have h3b2 : ¬3 ≤ st.consecutive_empty + 1 := h3b
    have hchk2 : ¬(decide (st.offset % 1000 = 0) && !w st.offset) = true := hchk
    have hcap2 : ¬100000 < st.offset + 50 := hcap
    rw [bulk_extract_loop, if_neg h3] at hr
    simp only [hemp2, if_true, if_neg h3b2, if_neg hchk2, if_neg hcap2] at hr
    exact ih (by show st.consecutive_empty + 1 < 3; omega)
      (by show st.offset + 50 = 50 * (st.pages_fetched + 1); omega) r hr
  | case6 st h3 tokens hemp em st1 hchk =>
    intro hce hoff r hr
    have hemp2 : ¬(fetch st.offset).isEmpty = true := hemp
    have hchk2 : (decide (st.offset % 1000 = 0) && !w st.offset) = true := hchk
    rw [bulk_extract_loop, if_neg h3] at hr
    simp only [hemp2, Bool.false_eq_true, if_false, if_pos hchk2] at hr
    cases hr
  | case7 st h3 tokens hemp em st1 hchk st2 hcap =>
    intro hce hoff r hr
    have hemp2 : ¬(fetch st.offset).isEmpty = true := hemp
    have hchk2 : ¬(decide (st.offset % 1000 = 0) && !w st.offset) = true := hchk
    have hcap2 : 100000 < st.offset + 50 := hcap
    rw [bulk_extract_loop, if_neg h3] at hr
    simp only [hemp2, Bool.false_eq_true, if_false, if_neg hchk2, if_pos hcap2,
      Except.ok.injEq] at hr
    subst hr
    right
    exact ⟨by show (0 : Nat) < 3; omega,
           by show st.offset + 50 = 50 * (st.pages_fetched + 1); omega⟩
  | case8 st h3 tokens hemp em st1 hchk st2 hcap ih =>
    intro hce hoff r hr
    have hemp2 : ¬(fetch st.offset).isEmpty = true := hemp
    have hchk2 : ¬(decide (st.offset % 1000 = 0) && !w st.offset) = true := hchk
    have hcap2 : ¬100000 < st.offset + 50 := hcap
    rw [bulk_extract_loop, if_neg h3] at hr
    simp only [hemp2, Bool.false_eq_true, if_false, if_neg hchk2, if_neg hcap2] at hr
    exact ih (by show (0 : Nat) < 3; omega)
      (by show st.offset + 50 = 50 * (st.pages_fetched + 1); omega) r hr

/-- Claim C3 counterexample: with every page empty, the loop stops at the third
consecutive empty page having fetched 3 pages, but the cursor offset at
termination is 100 = initialOffset + pageSize * (pagesFetched - 1), not
initialOffset + pageSize * pagesFetched = 150: the loop breaks before
advancing the cursor past the final empty page. -/
theorem c3_counterexample :
    bulk_extract_loop (fun _ => []) (fun _ => true) ⟨0, 0, 0, [], 0, 0⟩ =
      Except.ok ⟨100, 3, 3, [], 0, 0⟩ ∧
    (100 : Nat) ≠ 0 + 50 * 3 := by
  constructor
  · simp [bulk_extract_loop]
  · decide

/-- Claim C3 amended: whenever the paginated loop (started at offset 0 with
page size 50) terminates normally via the consecutive-empty condition, it
has seen exactly maxConsecutiveEmpty = 3 consecutive empty or failed
pages, and the cursor offset at termination plus one page size equals
pageSize * pagesFetched, i.e. offset = initialOffset +
pageSize * (pagesFetched - 1). -/
theorem c3_loop_termination_offset (fetch : Nat → List Tok) (r : LoopState)
    (hr : bulk_extract_loop fetch (fun _ => true) ⟨0, 0, 0, [], 0, 0⟩ = Except.ok r)
    (hend : 3 ≤ r.consecutive_empty) :
    r.consecutive_empty = 3 ∧ r.offset + 50 = 50 * r.pages_fetched := by
  have h := bulk_loop_offset_inv fetch (fun _ => true) ⟨0, 0, 0, [], 0, 0⟩
    (by decide) (by decide) r hr
  rcases h with h | h
  · exact h
  · omega

theorem c3_loop_termination_offset_witness :
    (3 : Nat) ≤ (3 : Nat) ∧
    ((⟨100, 3, 3, [], 0, 0⟩ : LoopState).consecutive_empty = 3 ∧
      (⟨100, 3, 3, [], 0, 0⟩ : LoopState).offset + 50 =
        50 * (⟨100, 3, 3, [], 0, 0⟩ : LoopState).pages_fetched) :=
  ⟨by decide,
   c3_loop_termination_offset (fun _ => []) ⟨100, 3, 3, [], 0, 0⟩
     (by simp [bulk_extract_loop]) (by decide)⟩

/-- Claim C6: the code evaluated at the failing input. save_progress has no
exception handler and neither has its call site, so when the checkpoint
file write at the very first checkpoint (offset 0, which satisfies
offset % 1000 == 0) raises, the exception propagates out of
bulk_extract_all_tokens: the run aborts instead of logging and
continuing. -/
theorem c6_checkpoint_failure_aborts_run :
    bulk_extract_loop (fun _ => []) (fun _ => false) ⟨0, 0, 0, [], 0, 0⟩ =
      Except.error ⟨0, 1, 1, [], 0, 0⟩ := by
  simp [bulk_extract_loop]

theorem update_status_mem (db : List ImgRow) (now : Nat) (addr status : String)
    (url path : Option String) (r : ImgRow)
    (hr : r ∈ update_token_image_status db now addr status url path)
    (haddr : r.token_address = addr) :
    r.arena_image_url = url ∧ r.arena_image_file_path = path ∧
      r.arena_image_scrape_status = some status := by
  unfold update_token_image_status at hr
  obtain ⟨r0, hr0, heq⟩ := List.mem_map.mp hr
  by_cases hb : (r0.token_address == addr) = true
  · rw [if_pos hb] at heq
    rw [← heq]
    exact ⟨rfl, rfl, rfl⟩
  · rw [if_neg hb] at heq
    rw [← heq] at haddr
    exact absurd (by simp [haddr]) hb

/-- Claim C10: on every non-success outcome (failed, timeout, error) the
per-key status update writes NULL into arena_image_url and
arena_image_file_path of every row with that address, unconditionally, so
it overwrites the values recorded by an earlier successful scrape. -/
theorem c10_failure_update_nulls_url_and_path (db : List ImgRow) (fs : List String)
    (now : Nat) (addr : String) (resp : DlResp)
    (hfail : match resp with | DlResp.http code _ => code ≠ 200 | _ => True)
    (r : ImgRow) (hr : r ∈ (download_image db fs now addr resp).1)
    (haddr : r.token_address = addr) :
    r.arena_image_url = none ∧ r.arena_image_file_path = none := by
  cases resp with
  | http code content =>
    have hne : ¬(code = 200) := hfail
    simp only [download_image, if_neg hne] at hr
    exact ⟨(update_status_mem db now addr "failed" none none r hr haddr).1,
           (update_status_mem db now addr "failed" none none r hr haddr).2.1⟩
  | timeout =>
    simp only [download_image] at hr
    exact ⟨(update_status_mem db now addr "timeout" none none r hr haddr).1,
           (update_status_mem db now addr "timeout" none none r hr haddr).2.1⟩
  | netError =>
    simp only [download_image] at hr
    exact ⟨(update_status_mem db now addr "error" none none r hr haddr).1,
           (update_status_mem db now addr "error" none none r hr haddr).2.1⟩

theorem c10_failure_update_nulls_url_and_path_witness :
    (ImgRow.mk "a" none none (some "timeout") (some 2)).arena_image_url = none ∧
    (ImgRow.mk "a" none none (some "timeout") (some 2)).arena_image_file_path = none :=
  c10_failure_update_nulls_url_and_path
    [⟨"a", some "oldurl", some "oldpath", some "success", some 1⟩] [] 2 "a"
    DlResp.timeout trivial ⟨"a", none, none, some "timeout", some 2⟩
    (by decide) rfl

theorem sweep_fold_not_mem (l : List String) : ∀ (fs : List String) (c : Nat) (p : String),
    p ∉ fs →
    p ∉ (l.foldl
      (fun acc a =>
        if imageFilePath a ∈ acc.1 then (fsRemove acc.1 (imageFilePath a), acc.2 + 1)
        else acc)
      (fs, c)).1 := by
  induction l with
  | nil => intro fs c p h; exact h
  | cons a t ih =>
    intro fs c p h
    rw [List.foldl_cons]
    by_cases hm : imageFilePath a ∈ fs
    · rw [if_pos hm]
      exact ih _ _ p (fun hc => h (List.mem_of_mem_filter hc))
    · rw [if_neg hm]
      exact ih fs c p h

theorem cleanup_adds_no_file (db : List ImgRow) (fs : List String) (p : String)
    (h : p ∉ fs) : p ∉ (cleanup_failed_images db fs).2.1 := by
  unfold cleanup_failed_images
  exact sweep_fold_not_mem _ fs 0 p h

/-- Claim C9 amended: a key whose download gets a non-200 HTTP status is
recorded with status "failed" and no file is written for it by this
attempt, so if no file for the key existed beforehand none exists after
the cleanup pass; but cleanup only ever removes files for keys whose
stored file path is non-NULL, and the failure update nulls the path, so a
file left by an earlier successful scrape of the same key is not removed
(see the counterexample). -/
theorem c9_http_error_failed_and_no_new_file (db : List ImgRow) (fs : List String)
    (now : Nat) (addr : String) (code : Nat) (content : String)
    (hcode : code ≠ 200) (hfile : imageFilePath addr ∉ fs) :
    (∀ r ∈ (download_image db fs now addr (DlResp.http code content)).1,
       r.token_address = addr → r.arena_image_scrape_status = some "failed") ∧
    (download_image db fs now addr (DlResp.http code content)).2.1 = fs ∧
    imageFilePath addr ∉
      (cleanup_failed_images (download_image db fs now addr (DlResp.http code content)).1
        (download_image db fs now addr (DlResp.http code content)).2.1).2.1 := by
  have hfs : (download_image db fs now addr (DlResp.http code content)).2.1 = fs := by
    simp [download_image, hcode]
  refine ⟨?_, hfs, ?_⟩
  · intro r hr haddr
    simp only [download_image, if_neg hcode] at hr
    exact (update_status_mem db now addr "failed" none none r hr haddr).2.2
  · rw [hfs]
    exact cleanup_adds_no_file _ fs _ hfile

theorem c9_http_error_failed_and_no_new_file_witness :
    ((500 : Nat) ≠ 200) ∧
    (imageFilePath "a" ∉ ([] : List String)) ∧
    (ImgRow.mk "a" none none (some "failed") (some 7)).arena_image_scrape_status =
      some "failed" ∧
    (download_image [⟨"a", none, none, none, none⟩] [] 7 "a" (DlResp.http 500 "")).2.1 =
      ([] : List String) ∧
    imageFilePath "a" ∉
      (cleanup_failed_images
        (download_image [⟨"a", none, none, none, none⟩] [] 7 "a" (DlResp.http 500 "")).1
        (download_image [⟨"a", none, none, none, none⟩] [] 7 "a" (DlResp.http 500 "")).2.1).2.1 := by
  have H := c9_http_error_failed_and_no_new_file [⟨"a", none, none, none, none⟩] [] 7 "a"
    500 "" (by decide) (by decide)
  exact ⟨by decide, by decide,
    H.1 ⟨"a", none, none, some "failed", some 7⟩ (by decide) rfl, H.2.1, H.2.2⟩

/-- Claim C9 counterexample: a key scraped successfully earlier (file on disk,
row status success with the path recorded) and then re-attempted with an
HTTP 500 is recorded as failed, but its file survives the cleanup pass:
the failure update set arena_image_file_path to NULL, so the cleanup
SELECT (which requires a non-NULL path) does not pick the key up and the
stale file is never unlinked. -/
theorem c9_counterexample :
    ((download_image [⟨"a", some (opengraphUrl "a"), some (imageFilePath "a"),
        some "success", some 1⟩] [imageFilePath "a"] 2 "a" (DlResp.http 500 "")).1 =
      [⟨"a", none, none, some "failed", some 2⟩]) ∧
    (cleanup_failed_images
        (download_image [⟨"a", some (opengraphUrl "a"), some (imageFilePath "a"),
          some "success", some 1⟩] [imageFilePath "a"] 2 "a" (DlResp.http 500 "")).1
        (download_image [⟨"a", some (opengraphUrl "a"), some (imageFilePath "a"),
          some "success", some 1⟩] [imageFilePath "a"] 2 "a" (DlResp.http 500 "")).2.1).2.1 =
      [imageFilePath "a"] ∧
    imageFilePath "a" ∈
      (cleanup_failed_images
        (download_image [⟨"a", some (opengraphUrl "a"), some (imageFilePath "a"),
          some "success", some 1⟩] [imageFilePath "a"] 2 "a" (DlResp.http 500 "")).1
        (download_image [⟨"a", some (opengraphUrl "a"), some (imageFilePath "a"),
          some "success", some 1⟩] [imageFilePath "a"] 2 "a" (DlResp.http 500 "")).2.1).2.1 := by
  refine ⟨by decide, by decide, by decide⟩
